import Mathlib

/-!
Shallow embedding of the `ginkgo` Gin middleware library: the error
classifier (`error_middleware.go`), the recovery guard, the bearer-token
extractor (`extract_token.go`), the authentication and permission
middleware (`middlewares.go`), and the JSON error envelope
(`responses.go`), together with the small fragments of its external
collaborators (the `eris` diagnostic-context wrapper, the `ungerr` typed
application errors, and the Gin request context) that the code exercises.
-/

namespace Ginkgo

/-! ## Typed application errors (model of the external `ungerr` library)

Model of the `ungerr` typed application errors as used by the repository:
each constructor carries the data the corresponding `ungerr` constructor
receives.  The HTTP status of each kind is fixed by the spec's outbound
mapping (400, 401, 403, 422, 500) and by the repository's tests
(422 for validation errors, 400 for bad requests, 500 for the masked
internal error). -/
inductive AppError where
  | validation (msgs : List String)
  | badRequest (msg : String)
  | unauthorized (msg : String)
  | forbidden (msg : String)
  | internalServer
  deriving DecidableEq

/-- The fixed user-facing text of the masked internal-fault error.
Modelled from the spec: `ungerr.InternalServerError()` carries a generic
message that never echoes the underlying error; the exact constant is
internal to the external `ungerr` library. -/
def internalServerMessage : String := "internal server error"

/-- Separator used to join field-level validation messages.
Modelled from the spec: the 422 validation error's message is the joined
field errors; the exact separator is internal to `ungerr`. -/
def joinMessages (msgs : List String) : String :=
  String.intercalate ", " msgs

/-- `HttpStatus()` of each `ungerr` error kind. -/
def AppError.httpStatus : AppError → Nat
  | .validation _ => 422
  | .badRequest _ => 400
  | .unauthorized _ => 401
  | .forbidden _ => 403
  | .internalServer => 500

/-- The user-facing message (`Error()`) of each `ungerr` error kind. -/
def AppError.message : AppError → String
  | .validation msgs => joinMessages msgs
  | .badRequest m => m
  | .unauthorized m => m
  | .forbidden m => m
  | .internalServer => internalServerMessage

/-! ## Raw Go error values

One constructor per error shape the repository's code distinguishes:
the `ungerr.AppError` interface, `validator.ValidationErrors` (whose
elements are represented by their `Error()` texts), the two
`encoding/json` error types, the `io.EOF` sentinel, a plain error
(`errors.New` or any other external error, represented by its `Error()`
text), and the two `eris` node shapes: `rootError` (from
`eris.New`/`eris.Errorf`, whose `ext` field is nil), `rootErrorExt`
(from `eris.Wrap` applied to a non-eris error, whose `ext` field holds
that error), and `wrapError` (from `eris.Wrap` applied to an eris
error). -/
inductive GoError where
  | app (a : AppError)
  | validationErrors (msgs : List String)
  | jsonSyntaxError (offset : Int)
  | jsonUnmarshalTypeError (field : String)
  | ioEOF
  | basic (text : String)
  | rootError (msg : String)
  | rootErrorExt (msg : String) (ext : GoError)
  | wrapError (msg : String) (err : GoError)
  deriving DecidableEq

/-- Substring test mirroring Go's `strings.Contains`. -/
def containsSubstr (s pat : String) : Bool :=
  s.data.tails.any (fun t => pat.data.isPrefixOf t)

/-- `Error()` on each error shape.  Only the shapes that can reach the
classifier's text checks matter (`ioEOF`, `basic`, the eris nodes, and
`app`); the texts of the structured shapes are representative stand-ins,
since the classifier matches those by type before looking at text. -/
def errText : GoError → String
  | .app a => a.message
  | .validationErrors msgs => joinMessages msgs
  | .jsonSyntaxError _ => "invalid character"
  | .jsonUnmarshalTypeError f => "json: cannot unmarshal field " ++ f
  | .ioEOF => "EOF"
  | .basic s => s
  | .rootError msg => msg
  | .rootErrorExt msg _ => msg
  | .wrapError msg e => msg ++ ": " ++ errText e

/-- `eris.Unwrap`: a `wrapError` unwraps to the eris error it wraps, a
`rootError` unwraps to its `ext` field (nil unless the root wraps an
external error), and every non-eris error has no `Unwrap` method. -/
def erisUnwrap : GoError → Option GoError
  | .rootError _ => none
  | .rootErrorExt _ ext => some ext
  | .wrapError _ e => some e
  | _ => none

/-- `eris.Wrap(err, msg)`: wrapping an eris error yields a `wrapError`
node; wrapping any other error yields a root node holding it in `ext`. -/
def erisWrapWith (msg : String) (e : GoError) : GoError :=
  match e with
  | .rootError _ => .wrapError msg e
  | .rootErrorExt _ _ => .wrapError msg e
  | .wrapError _ _ => .wrapError msg e
  | _ => .rootErrorExt msg e

/-- `eris.Errorf`: a fresh root error with no external cause. -/
def erisErrorf (msg : String) : GoError := .rootError msg

/-! ## Gin request context

The slice of `gin.Context` the middleware touches: the `Authorization`
header (Gin's `GetHeader` returns `""` when the header is absent, so an
absent header and an empty one coincide here, as they do in the code),
the request-scoped attribute store `Keys`, the accumulated error list
`Errors` (each entry standing for the `Err` field of a `*gin.Error`),
and the abort flag. -/

/-- A value stored in the attribute store (`map[string]any`). -/
inductive GoValue where
  | str (s : String)
  | int (n : Int)
  | boolean (b : Bool)
  | other
  deriving DecidableEq

structure GinContext where
  authHeader : String
  keys : List (String × GoValue)
  errors : List GoError
  aborted : Bool
  deriving DecidableEq

/-- `ctx.Error(err)` followed by `ctx.Abort()`. -/
def abortWithError (ctx : GinContext) (e : GoError) : GinContext :=
  { ctx with errors := ctx.errors ++ [e], aborted := true }

/-- `ctx.Set(key, value)`: map update, modelled by prepending so that a
lookup finds the most recent write first. -/
def ctxSet (ctx : GinContext) (k : String) (v : GoValue) : GinContext :=
  { ctx with keys := (k, v) :: ctx.keys }

/-- `ctx.Get(key)`: the most recent write to `key`, if any. -/
def ctxGet (ctx : GinContext) (k : String) : Option GoValue :=
  (ctx.keys.find? (fun p => p.1 == k)).map (·.2)

/-- `ctx.GetString(key)`: the stored value when it is a string, and `""`
when the key is missing or the value is not a string. -/
def ctxGetString (ctx : GinContext) (k : String) : String :=
  match ctxGet ctx k with
  | some (.str s) => s
  | _ => ""

/-- `for key, val := range data { ctx.Set(key, val) }`. -/
def ctxSetAll (ctx : GinContext) (data : List (String × GoValue)) : GinContext :=
  data.foldl (fun c kv => ctxSet c kv.1 kv.2) ctx

/-! ## Token extraction (`extract_token.go`) -/

def ErrMissingToken : String := "missing token"
def ErrInvalidToken : String := "invalid token"
def ErrUserNotFound : String := "user not found"
def ErrNoPermission : String := "user does not have the required permission"

/-- Split a character list at every occurrence of `sep`, mirroring Go's
`strings.Split` with a one-character separator. -/
def splitOnChar (sep : Char) : List Char → List (List Char)
  | [] => [[]]
  | c :: cs =>
    if c = sep then [] :: splitOnChar sep cs
    else
      match splitOnChar sep cs with
      | [] => [[c]]
      | h :: t => (c :: h) :: t

/-- `strings.Split(s, " ")`. -/
def goSplitSpace (s : String) : List String :=
  (splitOnChar ' ' s.data).map String.mk

/-- `strings.ToLower`, restricted to the ASCII range.  Go lowers the full
Unicode range, but no character outside ASCII lowercases onto one of the
letters of `"bearer"`, so the comparison below is unaffected. -/
def goToLower (s : String) : String :=
  String.mk (s.data.map Char.toLower)

/-- `validateAndExtractBearerToken`: split the header on spaces, require
exactly two parts, lowercase the first and compare it (the
`subtle.ConstantTimeCompare` call is functionally an equality test; its
constant-time nature is a timing property outside this model) against
`"bearer"`, and return the second part verbatim. -/
def validateAndExtractBearerToken (bearerToken : String) : Bool × String :=
  let splits := goSplitSpace bearerToken
  if h : splits.length = 2 then
    let tokenType := goToLower (splits.get ⟨0, by omega⟩)
    if tokenType = "bearer" then (true, splits.get ⟨1, by omega⟩)
    else (false, "")
  else (false, "")

/-- `extractBearerToken`: empty (hence also absent) header reports the
missing-token failure; a header that fails validation reports the
invalid-token failure; otherwise the extracted credential is returned. -/
def extractBearerToken (ctx : GinContext) : String × String :=
  let token := ctx.authHeader
  if token = "" then ("", ErrMissingToken)
  else
    let r := validateAndExtractBearerToken token
    if r.1 = false then ("", ErrInvalidToken)
    else (r.2, "")

/-- `extractToken`: dispatch on the strategy name; only `"Bearer"` is
supported, anything else is a hard configuration error. -/
def extractToken (ctx : GinContext) (authStrategy : String) :
    String × String × Option GoError :=
  if authStrategy = "Bearer" then
    let r := extractBearerToken ctx
    (r.1, r.2, none)
  else
    ("", "", some (erisErrorf ("unsupported auth strategy: " ++ authStrategy)))

/-! ## Error middleware (`error_middleware.go`) -/

/-- The structured shapes the classifier's type switch names explicitly
(`validator.ValidationErrors`, `*json.SyntaxError`,
`*json.UnmarshalTypeError`). -/
def isStructuredError : GoError → Bool
  | .validationErrors _ => true
  | .jsonSyntaxError _ => true
  | .jsonUnmarshalTypeError _ => true
  | _ => false

/-- `constructAppError`: unwrap with eris; no underlying error means the
error was never wrapped, so mask it (after logging) as the internal
fault.  Otherwise dispatch on the underlying error: the three structured
shapes by type, then the EOF and transport checks on the error text, and
finally the masked internal fault. -/
def constructAppError (err : GoError) : AppError :=
  match erisUnwrap err with
  | none => .internalServer
  | some originalErr =>
    match originalErr with
    | .validationErrors msgs => .validation msgs
    | .jsonSyntaxError _ => .badRequest "invalid json"
    | .jsonUnmarshalTypeError field =>
        .badRequest ("invalid value for field " ++ field)
    | _ =>
      let errStr := errText originalErr
      if originalErr = .ioEOF ∨ errStr = "EOF" then
        .badRequest "missing request body"
      else if containsSubstr errStr "connection reset by peer" = true ∨
              containsSubstr errStr "broken pipe" = true then
        .badRequest "connection error"
      else
        .internalServer

/-- The type assertion `err.Err.(ungerr.AppError)` in `handle`. -/
def asAppError : GoError → Option AppError
  | .app a => some a
  | _ => none

/-- The error-to-response step of `handle`: a typed application error is
passed through unchanged, anything else goes through
`constructAppError`. -/
def handleError (e : GoError) : AppError :=
  match asAppError e with
  | some a => a
  | none => constructAppError e

/-- The JSON error envelope (`JSONResponse` as built by
`NewErrorResponse`): message and the error value itself. -/
structure JSONResponse where
  message : String
  errors : Option AppError
  deriving DecidableEq

/-- `NewErrorResponse(err)`: message set to the error text, `Errors`
field set to the error. -/
def NewErrorResponse (a : AppError) : JSONResponse :=
  { message := a.message, errors := some a }

/-- The response written by `handle` after `ctx.Next()` returns: nothing
when the error list is empty, otherwise status and envelope of the
classified last error. -/
def emFinalize (ctx : GinContext) : Option (Nat × JSONResponse) :=
  match ctx.errors.getLast? with
  | none => none
  | some e => some ((handleError e).httpStatus, NewErrorResponse (handleError e))

/-! ## Recovery guard response writing (`handlePanic`) -/

/-- The slice of Gin's `ResponseWriter` the guard consults: the
`Written()` flag and the responses written so far. -/
structure ResponseWriter where
  written : Bool
  responses : List (Nat × JSONResponse)
  deriving DecidableEq

/-- `ctx.AbortWithStatusJSON(status, body)` as seen by the writer. -/
def ginAbortWithStatusJSON (w : ResponseWriter) (status : Nat)
    (body : JSONResponse) : ResponseWriter :=
  { written := true, responses := w.responses ++ [(status, body)] }

/-- The response-writing tail of `handlePanic`: write the masked
internal-fault response only when nothing has been written yet;
otherwise only log. -/
def handlePanicWrite (w : ResponseWriter) : ResponseWriter :=
  if w.written = false then
    ginAbortWithStatusJSON w AppError.internalServer.httpStatus
      (NewErrorResponse AppError.internalServer)
  else w

/-! ## Authentication and permission middleware (`middlewares.go`) -/

/-- The per-request handler returned by `NewAuthMiddleware`. -/
def newAuthMiddleware (authStrategy : String)
    (checkFn : GinContext → String → Bool × List (String × GoValue) × Option GoError)
    (ctx : GinContext) : GinContext :=
  let r := extractToken ctx authStrategy
  match r.2.2 with
  | some e => abortWithError ctx (erisWrapWith "error extracting token" e)
  | none =>
    if r.2.1 ≠ "" then abortWithError ctx (.app (.unauthorized r.2.1))
    else
      let c := checkFn ctx r.1
      match c.2.2 with
      | some e => abortWithError ctx e
      | none =>
        if c.1 = false then abortWithError ctx (.app (.unauthorized ErrUserNotFound))
        else ctxSetAll ctx c.2.1

/-- Lookup in the permission table (`permissionMap[role]`). -/
def lookupPerm (permissionMap : List (String × List String)) (role : String) :
    Option (List String) :=
  (permissionMap.find? (fun p => p.1 == role)).map (·.2)

/-- The per-request handler returned by `NewPermissionMiddleware`. -/
def newPermissionMiddleware (roleContextKey requiredPermission : String)
    (permissionMap : List (String × List String)) (ctx : GinContext) : GinContext :=
  let role := ctxGetString ctx roleContextKey
  if role = "" then
    abortWithError ctx (erisErrorf "role not found in context or invalid type")
  else
    match lookupPerm permissionMap role with
    | none => abortWithError ctx (erisErrorf ("unknown role: " ++ role))
    | some permissions =>
      if permissions.contains requiredPermission = false then
        abortWithError ctx (.app (.forbidden ErrNoPermission))
      else ctx

end Ginkgo

namespace Ginkgo

/-! ## Helper lemmas about splitting -/

theorem mk_data (s : String) : String.mk s.data = s := by
  cases s
  rfl

theorem data_append (s t : String) : (s ++ t).data = s.data ++ t.data := by
  cases s
  cases t
  rfl

theorem splitOnChar_ne_nil (sep : Char) (l : List Char) :
    splitOnChar sep l ≠ [] := by
  induction l with
  | nil => simp [splitOnChar]
  | cons c cs ih =>
    simp only [splitOnChar]
    split
    · simp
    · split
      · simp
      · simp

theorem splitOnChar_no_sep (sep : Char) (l : List Char) (h : sep ∉ l) :
    splitOnChar sep l = [l] := by
  induction l with
  | nil => rfl
  | cons c cs ih =>
    have hc : c ≠ sep := fun he => h (he ▸ List.mem_cons_self c cs)
    have hcs : sep ∉ cs := fun hm => h (List.mem_cons_of_mem c hm)
    simp only [splitOnChar, if_neg hc, ih hcs]

theorem splitOnChar_append_sep (sep : Char) (a b : List Char) (h : sep ∉ a) :
    splitOnChar sep (a ++ sep :: b) = a :: splitOnChar sep b := by
  induction a with
  | nil => simp [splitOnChar]
  | cons c cs ih =>
    have hc : c ≠ sep := fun he => h (he ▸ List.mem_cons_self c cs)
    have hcs : sep ∉ cs := fun hm => h (List.mem_cons_of_mem c hm)
    simp only [List.cons_append, splitOnChar, if_neg hc, List.append_eq, ih hcs]

theorem goSplitSpace_two_parts (scheme cred : String)
    (hs : ' ' ∉ scheme.data) (hc : ' ' ∉ cred.data) :
    goSplitSpace (scheme ++ " " ++ cred) = [scheme, cred] := by
  have hdata : (scheme ++ " " ++ cred).data = scheme.data ++ ' ' :: cred.data := by
    rw [data_append, data_append]
    show scheme.data ++ [' '] ++ cred.data = scheme.data ++ ' ' :: cred.data
    simp
  unfold goSplitSpace
  rw [hdata, splitOnChar_append_sep _ _ _ hs, splitOnChar_no_sep _ _ hc]
  simp [mk_data]

theorem validate_fails_of_malformed (s : String)
    (h : ¬((goSplitSpace s).length = 2 ∧
          goToLower ((goSplitSpace s).headD "") = "bearer")) :
    validateAndExtractBearerToken s = (false, "") := by
  by_cases hl : (goSplitSpace s).length = 2
  · obtain ⟨a, b, hab⟩ := List.length_eq_two.mp hl
    have hb : goToLower a ≠ "bearer" := by
      intro he
      exact h ⟨hl, by rw [hab]; exact he⟩
    simp only [validateAndExtractBearerToken, hab]
    simp [hab, hb]
  · simp only [validateAndExtractBearerToken]
    rw [dif_neg hl]

/-- C5: a header made of a space-free scheme that lowercases to
`"bearer"`, one separating space, and a space-free credential is
accepted, and the credential is returned verbatim — including the empty
credential arising from a single trailing space. -/
theorem bearer_wellformed_extracts_verbatim (scheme cred : String)
    (hs : ' ' ∉ scheme.data) (hc : ' ' ∉ cred.data)
    (hb : goToLower scheme = "bearer") :
    validateAndExtractBearerToken (scheme ++ " " ++ cred) = (true, cred) := by
  have hsplit := goSplitSpace_two_parts scheme cred hs hc
  simp only [validateAndExtractBearerToken, hsplit]
  simp [hsplit, hb]

/-- C5 witness: the boundary header `"Bearer "` (single trailing space)
is valid and yields the empty token. -/
theorem bearer_wellformed_extracts_verbatim_witness :
    validateAndExtractBearerToken ("Bearer" ++ " " ++ "") = (true, "") ∧
    validateAndExtractBearerToken ("Bearer" ++ " " ++ "abc123") = (true, "abc123") :=
  ⟨bearer_wellformed_extracts_verbatim "Bearer" "" (by decide) (by decide) (by decide),
   bearer_wellformed_extracts_verbatim "Bearer" "abc123" (by decide) (by decide) (by decide)⟩

/-- C6: a non-empty header that does not split into exactly two
space-separated parts, or whose first part does not lowercase to
`"bearer"`, makes extraction report the invalid-credential-format
failure and return no token. -/
theorem bearer_malformed_reports_invalid (ctx : GinContext)
    (h0 : ctx.authHeader ≠ "")
    (h : ¬((goSplitSpace ctx.authHeader).length = 2 ∧
          goToLower ((goSplitSpace ctx.authHeader).headD "") = "bearer")) :
    extractBearerToken ctx = ("", ErrInvalidToken) := by
  have hv := validate_fails_of_malformed ctx.authHeader h
  simp [extractBearerToken, h0, hv]

/-- C6 witness: a wrong scheme and a three-part header both report the
invalid-credential-format failure. -/
theorem bearer_malformed_reports_invalid_witness :
    extractBearerToken ⟨"Basic tok123", [], [], false⟩ = ("", ErrInvalidToken) ∧
    extractBearerToken ⟨"Bearer tok extra", [], [], false⟩ = ("", ErrInvalidToken) :=
  ⟨bearer_malformed_reports_invalid ⟨"Basic tok123", [], [], false⟩ (by decide) (by decide),
   bearer_malformed_reports_invalid ⟨"Bearer tok extra", [], [], false⟩ (by decide) (by decide)⟩

end Ginkgo

namespace Ginkgo

/-- C7: an absent or empty `Authorization` header makes bearer
extraction report the missing-credential failure (never the
invalid-credential-format one), and the authentication middleware
aborts with the unauthorized error whose status is 401 and whose
message is exactly `"missing token"`. -/
theorem missing_header_unauthorized (ctx : GinContext)
    (checkFn : GinContext → String → Bool × List (String × GoValue) × Option GoError)
    (h : ctx.authHeader = "") :
    extractBearerToken ctx = ("", ErrMissingToken) ∧
    ErrMissingToken ≠ ErrInvalidToken ∧
    newAuthMiddleware "Bearer" checkFn ctx =
      abortWithError ctx (.app (.unauthorized ErrMissingToken)) ∧
    (AppError.unauthorized ErrMissingToken).httpStatus = 401 ∧
    (AppError.unauthorized ErrMissingToken).message = "missing token" := by
  have hext : extractBearerToken ctx = ("", ErrMissingToken) := by
    simp [extractBearerToken, h]
  refine ⟨hext, by decide, ?_, rfl, rfl⟩
  simp [newAuthMiddleware, extractToken, hext, ErrMissingToken]

/-- C7 witness: concrete request with no `Authorization` header. -/
theorem missing_header_unauthorized_witness :
    newAuthMiddleware "Bearer" (fun _ _ => (true, [], none)) ⟨"", [], [], false⟩ =
      abortWithError ⟨"", [], [], false⟩ (.app (.unauthorized ErrMissingToken)) :=
  (missing_header_unauthorized ⟨"", [], [], false⟩ (fun _ _ => (true, [], none)) rfl).2.2.1

/-- C2: a typed application error sitting last in the request-scoped
error list passes through the classifier unchanged, and the written
response carries exactly its status code and exactly its message. -/
theorem appError_passthrough (ctx : GinContext) (a : AppError)
    (h : ctx.errors.getLast? = some (.app a)) :
    handleError (.app a) = a ∧
    emFinalize ctx = some (a.httpStatus, { message := a.message, errors := some a }) := by
  constructor
  · rfl
  · simp [emFinalize, h, handleError, asAppError, NewErrorResponse]

/-- C2 witness: a concrete forbidden error is passed through with its
own status 403 and its own message. -/
theorem appError_passthrough_witness :
    emFinalize ⟨"", [], [.app (.forbidden "no entry")], false⟩ =
      some (403, { message := "no entry", errors := some (.forbidden "no entry") }) :=
  (appError_passthrough ⟨"", [], [.app (.forbidden "no entry")], false⟩
    (.forbidden "no entry") rfl).2

/-- C4: the recovery guard's response writing.  For a writer consistent
with Gin's invariant (nothing recorded before the first write): if no
byte of the response has been written, the guard writes exactly one
masked internal-fault response with status 500; if the response was
already (partially) written, the guard leaves the writer untouched —
it never writes a second response to the same request. -/
theorem recovery_guard_single_write (w : ResponseWriter)
    (hw : w.written = false → w.responses = []) :
    (w.written = false →
      handlePanicWrite w =
        ⟨true, [(500, NewErrorResponse AppError.internalServer)]⟩) ∧
    (w.written = true → handlePanicWrite w = w) := by
  constructor
  · intro h
    simp [handlePanicWrite, h, ginAbortWithStatusJSON, hw h, AppError.httpStatus]
  · intro h
    simp [handlePanicWrite, h]

/-- C4 witness: fresh writer gets exactly the masked 500 response; an
already-written writer is left untouched. -/
theorem recovery_guard_single_write_witness :
    handlePanicWrite ⟨false, []⟩ =
      ⟨true, [(500, NewErrorResponse AppError.internalServer)]⟩ ∧
    handlePanicWrite ⟨true, [(200, ⟨"ok", none⟩)]⟩ = ⟨true, [(200, ⟨"ok", none⟩)]⟩ :=
  ⟨(recovery_guard_single_write ⟨false, []⟩ (fun _ => rfl)).1 rfl,
   (recovery_guard_single_write ⟨true, [(200, ⟨"ok", none⟩)]⟩ (by intro h; cases h)).2 rfl⟩

end Ginkgo

namespace Ginkgo

/-- C1: for a last error that is not a typed application error but
unwraps to an underlying error, the classifier maps the underlying
error to exactly one response according to its category, in the code's
priority order: validation collection ⇒ 422 with the joined field
messages; JSON syntax error ⇒ 400 `"invalid json"`; JSON type-mismatch
⇒ 400 naming the field; `io.EOF` or text exactly `"EOF"` ⇒ 400
`"missing request body"`; text containing `"connection reset by peer"`
or `"broken pipe"` ⇒ 400 `"connection error"`; anything else ⇒ the
masked internal fault (status 500), whose constant message is
independent of the underlying error. -/
theorem classifier_category_mapping (err originalErr : GoError)
    (hna : asAppError err = none)
    (hun : erisUnwrap err = some originalErr) :
    (∀ msgs, originalErr = .validationErrors msgs →
        handleError err = .validation msgs ∧
        (handleError err).httpStatus = 422 ∧
        (handleError err).message = joinMessages msgs) ∧
    (∀ off, originalErr = .jsonSyntaxError off →
        handleError err = .badRequest "invalid json" ∧
        (handleError err).httpStatus = 400) ∧
    (∀ f, originalErr = .jsonUnmarshalTypeError f →
        handleError err = .badRequest ("invalid value for field " ++ f) ∧
        (handleError err).httpStatus = 400) ∧
    (isStructuredError originalErr = false →
      (originalErr = .ioEOF ∨ errText originalErr = "EOF") →
        handleError err = .badRequest "missing request body" ∧
        (handleError err).httpStatus = 400) ∧
    (isStructuredError originalErr = false →
      ¬(originalErr = .ioEOF ∨ errText originalErr = "EOF") →
      (containsSubstr (errText originalErr) "connection reset by peer" = true ∨
       containsSubstr (errText originalErr) "broken pipe" = true) →
        handleError err = .badRequest "connection error" ∧
        (handleError err).httpStatus = 400) ∧
    (isStructuredError originalErr = false →
      ¬(originalErr = .ioEOF ∨ errText originalErr = "EOF") →
      ¬(containsSubstr (errText originalErr) "connection reset by peer" = true ∨
        containsSubstr (errText originalErr) "broken pipe" = true) →
        handleError err = .internalServer ∧
        (handleError err).httpStatus = 500 ∧
        (handleError err).message = internalServerMessage) := by
  have hh : handleError err = constructAppError err := by
    unfold handleError
    rw [hna]
  rw [hh]
  refine ⟨?_, ?_, ?_, ?_, ?_, ?_⟩
  · intro msgs hm
    subst hm
    simp [constructAppError, hun, AppError.httpStatus, AppError.message]
  · intro off hm
    subst hm
    simp [constructAppError, hun, AppError.httpStatus]
  · intro f hm
    subst hm
    simp [constructAppError, hun, AppError.httpStatus]
  · intro h1 h2
    rcases h2 with h2 | h2
    · subst h2
      simp [constructAppError, hun, AppError.httpStatus]
    · cases originalErr <;> simp [isStructuredError] at h1 <;>
        simp [constructAppError, hun, h2, AppError.httpStatus]
  · intro h1 h2 h3
    have h2b : ¬(errText originalErr = "EOF") := fun he => h2 (Or.inr he)
    cases originalErr <;> simp [isStructuredError] at h1 <;>
      first
      | exact absurd (Or.inl rfl) h2
      | rcases h3 with h3 | h3 <;>
          simp [constructAppError, hun, h2b, h3, AppError.httpStatus]
  · intro h1 h2 h3
    have h2b : ¬(errText originalErr = "EOF") := fun he => h2 (Or.inr he)
    have h3a : containsSubstr (errText originalErr) "connection reset by peer" = false := by
      cases hq : containsSubstr (errText originalErr) "connection reset by peer"
      · rfl
      · exact absurd (Or.inl hq) h3
    have h3b : containsSubstr (errText originalErr) "broken pipe" = false := by
      cases hq : containsSubstr (errText originalErr) "broken pipe"
      · rfl
      · exact absurd (Or.inr hq) h3
    cases originalErr <;> simp [isStructuredError] at h1 <;>
      first
      | exact absurd (Or.inl rfl) h2
      | simp [constructAppError, hun, h2b, h3a, h3b, AppError.httpStatus,
          AppError.message]

/-- C1 witness: an eris-wrapped JSON syntax error classifies to
400 `"invalid json"`, and an eris-wrapped `io.EOF` classifies to
400 `"missing request body"`. -/
theorem classifier_category_mapping_witness :
    handleError (.rootErrorExt "json parsing failed" (.jsonSyntaxError 10)) =
      .badRequest "invalid json" ∧
    handleError (.rootErrorExt "request body error" .ioEOF) =
      .badRequest "missing request body" :=
  ⟨((classifier_category_mapping
      (.rootErrorExt "json parsing failed" (.jsonSyntaxError 10))
      (.jsonSyntaxError 10) rfl rfl).2.1 10 rfl).1,
   ((classifier_category_mapping
      (.rootErrorExt "request body error" .ioEOF)
      .ioEOF rfl rfl).2.2.2.1 rfl (Or.inl rfl)).1⟩

end Ginkgo

namespace Ginkgo

/-! ## Helper lemmas about the attribute store -/

theorem ctxSetAll_eq (ctx : GinContext) (l : List (String × GoValue)) :
    ctxSetAll ctx l = { ctx with keys := l.reverse ++ ctx.keys } := by
  induction l generalizing ctx with
  | nil => rfl
  | cons kv t ih =>
    show ctxSetAll (ctxSet ctx kv.1 kv.2) t = _
    rw [ih]
    simp [ctxSet, List.append_assoc]

theorem find?_append {α : Type} (p : α → Bool) (l₁ l₂ : List α) :
    (l₁ ++ l₂).find? p =
      match l₁.find? p with
      | some a => some a
      | none => l₂.find? p := by
  induction l₁ with
  | nil => simp
  | cons a t ih =>
    by_cases hp : p a
    · simp [List.find?_cons_of_pos _ hp]
    · simp [List.find?_cons_of_neg _ hp, ih]

/-- The most recent value written for key `k` within a single batch of
attributes (last write wins). -/
def findLastVal (l : List (String × GoValue)) (k : String) : Option GoValue :=
  (l.reverse.find? (fun p => p.1 == k)).map (·.2)

/-- C9: when extraction yields a usable token (no hard error, no
failure message) and `checkFn` returns `(true, attrs, nil)`, the
authentication middleware merges every attribute entry into the
request-scoped store with last-write-wins semantics, adds no error,
and does not abort, so the pipeline continues. -/
theorem auth_success_merges_attributes (authStrategy : String)
    (checkFn : GinContext → String → Bool × List (String × GoValue) × Option GoError)
    (ctx : GinContext) (attrs : List (String × GoValue))
    (hext : (extractToken ctx authStrategy).2.2 = none)
    (hmsg : (extractToken ctx authStrategy).2.1 = "")
    (hchk : checkFn ctx (extractToken ctx authStrategy).1 = (true, attrs, none)) :
    newAuthMiddleware authStrategy checkFn ctx = ctxSetAll ctx attrs ∧
    (newAuthMiddleware authStrategy checkFn ctx).aborted = ctx.aborted ∧
    (newAuthMiddleware authStrategy checkFn ctx).errors = ctx.errors ∧
    ∀ k, ctxGet (newAuthMiddleware authStrategy checkFn ctx) k =
      match findLastVal attrs k with
      | some v => some v
      | none => ctxGet ctx k := by
  have hres : newAuthMiddleware authStrategy checkFn ctx = ctxSetAll ctx attrs := by
    simp [newAuthMiddleware, hext, hmsg, hchk]
  refine ⟨hres, ?_, ?_, ?_⟩
  · rw [hres, ctxSetAll_eq]
  · rw [hres, ctxSetAll_eq]
  · intro k
    rw [hres, ctxSetAll_eq]
    show ((attrs.reverse ++ ctx.keys).find? (fun p => p.1 == k)).map (·.2) = _
    rw [find?_append]
    cases hf : attrs.reverse.find? (fun p => p.1 == k) with
    | none => simp [findLastVal, hf, ctxGet]
    | some v => simp [findLastVal, hf]

/-- C9 witness: header `"Bearer abc123"` with `checkFn` returning
`(true, {"user_id": "123", "role": "admin"}, nil)` continues the
pipeline and leaves `user_id = "123"` and `role = "admin"` readable in
the store. -/
theorem auth_success_merges_attributes_witness :
    (newAuthMiddleware "Bearer"
        (fun _ _ => (true, [("user_id", .str "123"), ("role", .str "admin")], none))
        ⟨"Bearer abc123", [], [], false⟩).aborted = false ∧
    ctxGet (newAuthMiddleware "Bearer"
        (fun _ _ => (true, [("user_id", .str "123"), ("role", .str "admin")], none))
        ⟨"Bearer abc123", [], [], false⟩) "user_id" = some (.str "123") ∧
    ctxGet (newAuthMiddleware "Bearer"
        (fun _ _ => (true, [("user_id", .str "123"), ("role", .str "admin")], none))
        ⟨"Bearer abc123", [], [], false⟩) "role" = some (.str "admin") := by
  have h := auth_success_merges_attributes "Bearer"
    (fun _ _ => (true, [("user_id", .str "123"), ("role", .str "admin")], none))
    ⟨"Bearer abc123", [], [], false⟩
    [("user_id", .str "123"), ("role", .str "admin")]
    (by decide) (by decide) rfl
  refine ⟨h.2.1, ?_, ?_⟩
  · rw [h.2.2.2 "user_id"]
    decide
  · rw [h.2.2.2 "role"]
    decide

/-- C10: whenever the authentication middleware aborts — hard
extraction error, missing or invalid token, an error from `checkFn`,
or `found = false` — it leaves the request-scoped attribute store
untouched: attributes are merged only on the all-success path. -/
theorem auth_abort_preserves_store (authStrategy : String)
    (checkFn : GinContext → String → Bool × List (String × GoValue) × Option GoError)
    (ctx : GinContext)
    (h0 : ctx.aborted = false)
    (h1 : (newAuthMiddleware authStrategy checkFn ctx).aborted = true) :
    (newAuthMiddleware authStrategy checkFn ctx).keys = ctx.keys := by
  rcases he : (extractToken ctx authStrategy).2.2 with _ | e
  · by_cases hm : (extractToken ctx authStrategy).2.1 = ""
    · rcases hc : checkFn ctx (extractToken ctx authStrategy).1 with ⟨ex, data, cerr⟩
      rcases cerr with _ | ce
      · cases ex
        · simp [newAuthMiddleware, he, hm, hc, abortWithError]
        · exfalso
          have hab : (newAuthMiddleware authStrategy checkFn ctx).aborted = ctx.aborted := by
            simp [newAuthMiddleware, he, hm, hc, ctxSetAll_eq]
          rw [hab, h0] at h1
          cases h1
      · simp [newAuthMiddleware, he, hm, hc, abortWithError]
    · simp [newAuthMiddleware, he, hm, abortWithError]
  · simp [newAuthMiddleware, he, abortWithError]

/-- C10 witness: a request with no token aborts and leaves a
pre-populated store exactly as it was. -/
theorem auth_abort_preserves_store_witness :
    (newAuthMiddleware "Bearer" (fun _ _ => (true, [("x", .str "y")], none))
      ⟨"", [("k", .str "v")], [], false⟩).keys = [("k", .str "v")] :=
  auth_abort_preserves_store "Bearer" (fun _ _ => (true, [("x", .str "y")], none))
    ⟨"", [("k", .str "v")], [], false⟩ rfl (by decide)

end Ginkgo

namespace Ginkgo

/-- C3 counterexample: with the role attribute present but not a string
(so `GetString` yields `""`), the permission middleware aborts with a
bare `eris.Errorf` error; that error has no unwrappable cause, so the
error middleware classifies it as the masked internal fault with status
500 — not a forbidden-class (403) outcome. -/
theorem authorizer_misconfig_not_forbidden :
    (newPermissionMiddleware "role" "read" [("admin", ["read"])]
        ⟨"", [("role", .int 123)], [], false⟩).aborted = true ∧
    (newPermissionMiddleware "role" "read" [("admin", ["read"])]
        ⟨"", [("role", .int 123)], [], false⟩).errors =
      [.rootError "role not found in context or invalid type"] ∧
    (handleError (.rootError "role not found in context or invalid type")).httpStatus
      = 500 ∧
    ¬(handleError (.rootError "role not found in context or invalid type")).httpStatus
      = 403 := by
  decide

/-- C3 (amended): when the role attribute is missing, not a string, or
not present in the permission table, the authorizer aborts with an
error that the classifier maps to the masked internal-fault error —
status 500, with a single fixed user-facing message that does not
distinguish the cases.  The forbidden (403) outcome with message
`"user does not have the required permission"` arises only in the
insufficient-permission case. -/
theorem authorizer_misconfig_masked_internal
    (roleContextKey requiredPermission : String)
    (permissionMap : List (String × List String)) (ctx : GinContext) :
    (ctxGetString ctx roleContextKey = "" ∨
       lookupPerm permissionMap (ctxGetString ctx roleContextKey) = none →
      ∃ e, newPermissionMiddleware roleContextKey requiredPermission permissionMap ctx
            = abortWithError ctx e ∧
          handleError e = .internalServer ∧
          (handleError e).httpStatus = 500 ∧
          (handleError e).message = internalServerMessage) ∧
    (∀ perms, ¬ctxGetString ctx roleContextKey = "" →
      lookupPerm permissionMap (ctxGetString ctx roleContextKey) = some perms →
      perms.contains requiredPermission = false →
      newPermissionMiddleware roleContextKey requiredPermission permissionMap ctx
          = abortWithError ctx (.app (.forbidden ErrNoPermission)) ∧
        (AppError.forbidden ErrNoPermission).httpStatus = 403) := by
  constructor
  · intro h
    by_cases hr : ctxGetString ctx roleContextKey = ""
    · refine ⟨.rootError "role not found in context or invalid type", ?_, rfl, rfl, rfl⟩
      simp [newPermissionMiddleware, hr, erisErrorf]
    · have hl : lookupPerm permissionMap (ctxGetString ctx roleContextKey) = none :=
        h.resolve_left hr
      refine ⟨.rootError ("unknown role: " ++ ctxGetString ctx roleContextKey),
        ?_, rfl, rfl, rfl⟩
      simp [newPermissionMiddleware, hr, hl, erisErrorf]
  · intro perms hr hl hp
    have hmem : requiredPermission ∉ perms := by simpa using hp
    refine ⟨?_, rfl⟩
    simp [newPermissionMiddleware, hr, hl, hp, hmem]

/-- C3 amended-claim witness: a store with no role entry yields the
masked 500 outcome; a known role lacking the required permission yields
the 403 forbidden outcome. -/
theorem authorizer_misconfig_masked_internal_witness :
    (∃ e, newPermissionMiddleware "role" "read" [("admin", ["read"])]
            ⟨"", [], [], false⟩
          = abortWithError ⟨"", [], [], false⟩ e ∧
        handleError e = .internalServer ∧
        (handleError e).httpStatus = 500 ∧
        (handleError e).message = internalServerMessage) ∧
    (newPermissionMiddleware "role" "write" [("viewer", ["read"])]
        ⟨"", [("role", .str "viewer")], [], false⟩
      = abortWithError ⟨"", [("role", .str "viewer")], [], false⟩
          (.app (.forbidden ErrNoPermission)) ∧
      (AppError.forbidden ErrNoPermission).httpStatus = 403) :=
  ⟨(authorizer_misconfig_masked_internal "role" "read" [("admin", ["read"])]
      ⟨"", [], [], false⟩).1 (Or.inl (by decide)),
   (authorizer_misconfig_masked_internal "role" "write" [("viewer", ["read"])]
      ⟨"", [("role", .str "viewer")], [], false⟩).2 ["read"]
      (by decide) (by decide) (by decide)⟩

/-- C8 counterexample: for the strategy name
`"connection reset by peer"` the middleware does abort with the hard
extraction error, but the classifier then maps that error to the 400
`"connection error"` response — not to the masked 500 internal fault —
because the error's text contains the transport pattern. -/
theorem unsupported_strategy_not_always_masked :
    (newAuthMiddleware "connection reset by peer" (fun _ _ => (true, [], none))
        ⟨"", [], [], false⟩).errors =
      [.wrapError "error extracting token"
        (.rootError "unsupported auth strategy: connection reset by peer")] ∧
    handleError (.wrapError "error extracting token"
        (.rootError "unsupported auth strategy: connection reset by peer")) =
      .badRequest "connection error" ∧
    ¬(handleError (.wrapError "error extracting token"
        (.rootError "unsupported auth strategy: connection reset by peer"))).httpStatus
      = 500 := by
  decide

end Ginkgo

namespace Ginkgo

theorem unsupported_msg_ne_eof (s : String) :
    "unsupported auth strategy: " ++ s ≠ "EOF" := by
  intro hEq
  have hd : ("unsupported auth strategy: " ++ s).data = "EOF".data := by rw [hEq]
  rw [data_append] at hd
  have hl := congrArg List.length hd
  rw [List.length_append] at hl
  have h27 : ("unsupported auth strategy: ".data).length = 27 := by decide
  have h3 : ("EOF".data).length = 3 := by decide
  rw [h27, h3] at hl
  omega

/-- C8 (amended): for every strategy name other than `"Bearer"` whose
generated error text `"unsupported auth strategy: <name>"` does not
contain `"connection reset by peer"` or `"broken pipe"`, the extractor
returns a hard configuration error — never the missing-token or
invalid-token request-level failure — and the middleware aborts with
the eris-wrapped hard error, which the classifier maps to the masked
internal fault: status 500 (in particular not 401), fixed message
independent of the strategy error. -/
theorem unsupported_strategy_masked (authStrategy : String)
    (checkFn : GinContext → String → Bool × List (String × GoValue) × Option GoError)
    (ctx : GinContext)
    (hne : authStrategy ≠ "Bearer")
    (hc1 : containsSubstr ("unsupported auth strategy: " ++ authStrategy)
            "connection reset by peer" = false)
    (hc2 : containsSubstr ("unsupported auth strategy: " ++ authStrategy)
            "broken pipe" = false) :
    extractToken ctx authStrategy =
      ("", "", some (.rootError ("unsupported auth strategy: " ++ authStrategy))) ∧
    newAuthMiddleware authStrategy checkFn ctx =
      abortWithError ctx (.wrapError "error extracting token"
        (.rootError ("unsupported auth strategy: " ++ authStrategy))) ∧
    handleError (.wrapError "error extracting token"
        (.rootError ("unsupported auth strategy: " ++ authStrategy))) =
      .internalServer ∧
    (handleError (.wrapError "error extracting token"
        (.rootError ("unsupported auth strategy: " ++ authStrategy)))).httpStatus
      = 500 ∧
    (handleError (.wrapError "error extracting token"
        (.rootError ("unsupported auth strategy: " ++ authStrategy)))).message
      = internalServerMessage ∧
    ¬(handleError (.wrapError "error extracting token"
        (.rootError ("unsupported auth strategy: " ++ authStrategy)))).httpStatus
      = 401 := by
  have hext : extractToken ctx authStrategy =
      ("", "", some (.rootError ("unsupported auth strategy: " ++ authStrategy))) := by
    simp [extractToken, hne, erisErrorf]
  have hmw : newAuthMiddleware authStrategy checkFn ctx =
      abortWithError ctx (.wrapError "error extracting token"
        (.rootError ("unsupported auth strategy: " ++ authStrategy))) := by
    simp [newAuthMiddleware, hext, erisWrapWith]
  have hcl : handleError (.wrapError "error extracting token"
      (.rootError ("unsupported auth strategy: " ++ authStrategy))) =
      .internalServer := by
    simp [handleError, asAppError, constructAppError, erisUnwrap, errText,
      unsupported_msg_ne_eof authStrategy, hc1, hc2]
  exact ⟨hext, hmw, hcl, by rw [hcl]; rfl, by rw [hcl]; rfl, by rw [hcl]; decide⟩

/-- C8 witness: the strategy name `"Basic"` is rejected with the hard
error and ends in the masked 500 outcome. -/
theorem unsupported_strategy_masked_witness :
    newAuthMiddleware "Basic" (fun _ _ => (true, [], none)) ⟨"", [], [], false⟩ =
      abortWithError ⟨"", [], [], false⟩ (.wrapError "error extracting token"
        (.rootError "unsupported auth strategy: Basic")) ∧
    handleError (.wrapError "error extracting token"
        (.rootError "unsupported auth strategy: Basic")) = .internalServer :=
  ⟨(unsupported_strategy_masked "Basic" (fun _ _ => (true, [], none))
      ⟨"", [], [], false⟩ (by decide) (by decide) (by decide)).2.1,
   (unsupported_strategy_masked "Basic" (fun _ _ => (true, [], none))
      ⟨"", [], [], false⟩ (by decide) (by decide) (by decide)).2.2.1⟩

end Ginkgo
